import Mathlib

/-!
# CutoutCamera: webcam overlay extension

A shallow embedding of the two scripts of the extension:

* `content.js`  (the Overlay Agent): namespace `CutoutCamera.Content`;
* `background.js` (the Toggle Controller): namespace `CutoutCamera.Background`.

JavaScript objects are kept in explicit heaps (lists indexed by handle), the
module-level `let` variables are fields of the state record, and an `async`
function is split at its single `await` into the part that runs when the
function is called and the part that runs when the awaited promise settles.
The host (browser) is the environment: it delivers messages / clicks and
settles pending promises, one event at a time (single event loop).
-/

namespace CutoutCamera

/-- Apply `f` to the object stored at handle `h` of a heap; other handles and
a dangling handle leave the heap as it is. -/
def modifyAt {α : Type} (f : α → α) : List α → Nat → List α
  | [], _ => []
  | x :: xs, 0 => f x :: xs
  | x :: xs, h + 1 => x :: modifyAt f xs h

namespace Content

/-- The `<video>` element with the properties `content.js` reads or writes.
The `style.*` fields hold the inline style; a fresh element has none set. -/
structure VideoElement where
  id : String := ""
  autoplay : Bool := false
  muted : Bool := false
  position : String := ""
  bottom : String := ""
  right : String := ""
  width : String := ""
  height : String := ""
  borderRadius : String := ""
  objectFit : String := ""
  zIndex : String := ""
  boxShadow : String := ""
  backgroundColor : String := ""
  display : String := ""
  srcObject : Option Nat := none
  playCalls : Nat := 0
  deriving DecidableEq, Repr

/-- The `readyState` of a `MediaStreamTrack`; `track.stop()` ends it. -/
inductive TrackState where
  | live
  | ended
  deriving DecidableEq, Repr

/-- A `MediaStream`: the tracks returned by `getTracks()`. -/
structure MediaStream where
  tracks : List TrackState
  deriving DecidableEq, Repr

/-- The call `track.stop()`. -/
def TrackState.stop (_ : TrackState) : TrackState := TrackState.ended

/-- The stream still captures: one of its tracks has not been stopped. -/
def MediaStream.active (s : MediaStream) : Bool :=
  s.tracks.any (fun t => t == TrackState.live)

/-- The statement `getTracks().forEach((track) => track.stop())`. -/
def MediaStream.stopTracks (s : MediaStream) : MediaStream :=
  { tracks := s.tracks.map TrackState.stop }

/-- A call of `showOverlay` suspended at `await getUserMedia(...)`: the
request it waits for and its local `const video`. -/
structure PendingShow where
  req : Nat
  video : Nat
  deriving DecidableEq, Repr

/-- The page context of one load of `content.js`. -/
structure Page where
  /-- The variable `webcamVideo` (handle into `elements`). -/
  webcamVideo : Option Nat := none
  /-- The variable `webcamStream` (handle into `streams`). -/
  webcamStream : Option Nat := none
  /-- every element made by `document.createElement('video')`. -/
  elements : List VideoElement := []
  /-- children appended to `document.body`. -/
  body : List Nat := []
  /-- every stream a camera request resolved with. -/
  streams : List MediaStream := []
  /-- the `showOverlay` calls waiting for their camera request. -/
  pending : List PendingShow := []
  /-- number of `getUserMedia` calls issued so far. -/
  requests : Nat := 0
  /-- lines written by `console.error`. -/
  errors : List String := []
  /-- rejections of a `showOverlay` promise (nobody handles them). -/
  unhandled : List String := []
  deriving DecidableEq, Repr

/-- The page context right after the script is loaded. -/
def Page.init : Page := {}

/-- The function `getOrCreateOverlay` of `content.js`: the element and the new state. -/
def getOrCreateOverlay (p : Page) : Nat × Page :=
  match p.webcamVideo with
  | some v => (v, p)
  | none =>
    let video : VideoElement :=
      { id := "webcam-overlay"
        autoplay := true
        muted := true
        position := "fixed"
        bottom := "10px"
        right := "10px"
        width := "150px"
        height := "150px"
        borderRadius := "50%"
        objectFit := "cover"
        zIndex := "2147483647"
        boxShadow := "0 0 8px rgba(0, 0, 0, 0.3)"
        backgroundColor := "#000" }
    let h := p.elements.length
    (h, { p with elements := p.elements ++ [video], body := p.body ++ [h], webcamVideo := some h })

/-- The function `hideOverlay` of `content.js`. -/
def hideOverlay (p : Page) : Page :=
  let p1 : Page :=
    match p.webcamVideo with
    | some v => { p with elements := modifyAt (fun e => { e with display := "none" }) p.elements v }
    | none => p
  match p1.webcamStream with
  | some s => { p1 with streams := modifyAt MediaStream.stopTracks p1.streams s, webcamStream := none }
  | none => p1

/-- The function `showOverlay` up to its `await`: either it returns (stream
already held) or it issues the camera request and suspends. -/
def showOverlay (p : Page) : Page :=
  let (video, p1) := getOrCreateOverlay p
  match p1.webcamStream with
  | some _ => { p1 with elements := modifyAt (fun e => { e with display := "block" }) p1.elements video }
  | none =>
    { p1 with pending := p1.pending ++ [{ req := p1.requests, video := video }]
              requests := p1.requests + 1 }

/-- The rest of `showOverlay`, run when the awaited camera request settles with
`outcome` (the handle of the resolved stream, or the rejection): the `try`
body after the `await`, and the `catch`. -/
def showOverlayResume (p : Page) (video : Nat) (outcome : Except String Nat) : Except String Page :=
  tryCatch
    (do
      let stream ← outcome
      let p1 : Page := { p with webcamStream := some stream }
      let p2 : Page :=
        { p1 with elements := modifyAt (fun e => { e with srcObject := p1.webcamStream }) p1.elements video }
      let p3 : Page :=
        { p2 with elements := modifyAt (fun e => { e with playCalls := e.playCalls + 1 }) p2.elements video }
      pure p3)
    (fun err =>
      let p1 : Page := { p with errors := p.errors ++ ["Failed to access webcam: " ++ err] }
      pure (hideOverlay p1))

/-- The message received by the `chrome.runtime.onMessage` listener; a falsy
message is `none`. -/
structure Message where
  action : String
  deriving DecidableEq, Repr

/-- How the host settles a camera request: a stream with so many tracks, or a
rejection. -/
inductive CameraOutcome where
  | granted (tracks : Nat)
  | denied (err : String)
  deriving DecidableEq, Repr

/-- What the event loop of the page runs next. -/
inductive Event where
  | message (m : Option Message)
  | settle (req : Nat) (outcome : CameraOutcome)
  deriving DecidableEq, Repr

/-- The `chrome.runtime.onMessage` listener of `content.js`. -/
def onMessage (p : Page) (m : Option Message) : Page :=
  match m with
  | none => p
  | some msg =>
    if msg.action = "show" then showOverlay p
    else if msg.action = "hide" then hideOverlay p
    else p

/-- The host settles camera request `req`: the suspended `showOverlay` call
resumes. A request that is not pending cannot settle. -/
def onSettle (p : Page) (req : Nat) (outcome : CameraOutcome) : Page :=
  match p.pending.find? (fun c => c.req == req) with
  | none => p
  | some c =>
    let p1 : Page := { p with pending := p.pending.filter (fun d => !(d.req == req)) }
    let (p2, result) : Page × Except String Nat :=
      match outcome with
      | CameraOutcome.granted n =>
        ({ p1 with streams := p1.streams ++ [{ tracks := List.replicate n TrackState.live }] },
          Except.ok p1.streams.length)
      | CameraOutcome.denied err => (p1, Except.error err)
    match showOverlayResume p2 c.video result with
    | Except.ok p3 => p3
    | Except.error e => { p2 with unhandled := p2.unhandled ++ [e] }

/-- One turn of the page's event loop. -/
def step (p : Page) : Event → Page
  | Event.message m => onMessage p m
  | Event.settle req outcome => onSettle p req outcome

/-- The events handled in order. -/
def run (p : Page) (evs : List Event) : Page := evs.foldl step p

/-- Every state the page passes through while handling `evs`, the first included. -/
def trace (p : Page) : List Event → List Page
  | [] => [p]
  | e :: evs => p :: trace (step p e) evs

/-- The show intent. -/
def showIntent : Event := Event.message (some { action := "show" })

/-- The hide intent. -/
def hideIntent : Event := Event.message (some { action := "hide" })

/-- Number of streams that still capture. -/
def activeStreams (p : Page) : Nat := p.streams.countP MediaStream.active

/-- The `style.display` of the overlay element held in `webcamVideo`. -/
def overlayDisplay (p : Page) : Option String :=
  match p.webcamVideo with
  | some v => (p.elements[v]?).map VideoElement.display
  | none => none

/-- The `srcObject` of the overlay element held in `webcamVideo`. -/
def overlaySrc (p : Page) : Option Nat :=
  match p.webcamVideo with
  | some v => (p.elements[v]?).bind VideoElement.srcObject
  | none => none

/-- No event of the list settles camera request `req`. -/
def leavesPending (req : Nat) : List Event → Bool
  | [] => true
  | Event.message _ :: evs => leavesPending req evs
  | Event.settle r _ :: evs => r != req && leavesPending req evs

/-- One show/hide cycle: the show intent, its camera request (number `i`)
resolving with a stream of `n` tracks, the hide intent. -/
def cycle (i n : Nat) : List Event :=
  [showIntent, Event.settle i (CameraOutcome.granted n), hideIntent]

/-- The cycle repeated `N` times from a fresh page; the stream of cycle `i` has
`tracks i` tracks. -/
def cycles (tracks : Nat → Nat) : Nat → List Event
  | 0 => []
  | N + 1 => cycles tracks N ++ cycle N (tracks N)

/-- Well-formed page states: pending calls wait for requests that were
issued, no rejection escaped, and the document holds exactly the element held
in `webcamVideo`, if any. -/
def Page.WF (p : Page) : Prop :=
  (∀ d ∈ p.pending, d.req < p.requests) ∧ p.unhandled = [] ∧
  match p.webcamVideo with
  | none => p.elements = [] ∧ p.body = []
  | some v => v = 0 ∧ p.elements.length = 1 ∧ p.body = [0]

/-- The page is idle after `k` camera requests: well-formed, no stream held,
no call pending, and no stream still capturing. -/
def Page.Idle (k : Nat) (p : Page) : Prop :=
  p.WF ∧ p.webcamStream = none ∧ p.pending = [] ∧ p.requests = k ∧ activeStreams p = 0 ∧
    p.streams.length = k

end Content

namespace Background

/-- The payload `{ action: ... }` of `chrome.tabs.sendMessage`. -/
structure Message where
  action : String
  deriving DecidableEq, Repr

/-- A run of the `onClicked` listener suspended at
`await chrome.scripting.executeScript(...)`: the injection it waits for and
the `tab.id` of its argument. -/
structure PendingClick where
  req : Nat
  tabId : Nat
  deriving DecidableEq, Repr

/-- The service worker of `background.js` and the host state it writes. -/
structure Controller where
  /-- The variable `overlayEnabled`. -/
  overlayEnabled : Bool := false
  /-- the text last passed to `chrome.action.setBadgeText`. -/
  badgeText : String := ""
  /-- the `chrome.tabs.sendMessage` calls made: target tab and payload. -/
  sent : List (Nat × Message) := []
  /-- listener runs waiting for their injection. -/
  pending : List PendingClick := []
  /-- number of `executeScript` calls issued so far. -/
  injections : Nat := 0
  /-- lines written by `console.error`. -/
  errors : List String := []
  /-- rejections of a listener promise (nobody handles them). -/
  unhandled : List String := []
  deriving DecidableEq, Repr

/-- A freshly started service worker. -/
def Controller.init : Controller := {}

/-- How the host settles an injection. -/
inductive InjectionOutcome where
  | injected
  | failed (err : String)
  deriving DecidableEq, Repr

/-- What the event loop of the service worker runs next. -/
inductive Event where
  | click (tabId : Nat)
  | settle (req : Nat) (outcome : InjectionOutcome)
  deriving DecidableEq, Repr

/-- The `chrome.action.onClicked` listener up to its `await`: flip the toggle
and issue the injection for `tab.id`. -/
def onClicked (c : Controller) (tabId : Nat) : Controller :=
  let c1 : Controller := { c with overlayEnabled := !c.overlayEnabled }
  { c1 with pending := c1.pending ++ [{ req := c1.injections, tabId := tabId }]
            injections := c1.injections + 1 }

/-- The rest of the listener, run when the awaited injection settles: the
`try` body after the `await`, and the `catch`. -/
def onClickedResume (c : Controller) (tabId : Nat) (outcome : Except String Unit) :
    Except String Controller :=
  tryCatch
    (do
      outcome
      let c1 : Controller :=
        { c with sent := c.sent ++ [(tabId, { action := if c.overlayEnabled then "show" else "hide" })] }
      let c2 : Controller := { c1 with badgeText := if c1.overlayEnabled then "ON" else "" }
      pure c2)
    (fun err =>
      pure { c with errors := c.errors ++ ["Failed to toggle webcam overlay: " ++ err] })

/-- The host settles injection `req`: the suspended listener run resumes. An
injection that is not pending cannot settle. -/
def onSettle (c : Controller) (req : Nat) (outcome : InjectionOutcome) : Controller :=
  match c.pending.find? (fun d => d.req == req) with
  | none => c
  | some d =>
    let c1 : Controller := { c with pending := c.pending.filter (fun e => !(e.req == req)) }
    let result : Except String Unit :=
      match outcome with
      | InjectionOutcome.injected => Except.ok ()
      | InjectionOutcome.failed err => Except.error err
    match onClickedResume c1 d.tabId result with
    | Except.ok c2 => c2
    | Except.error e => { c1 with unhandled := c1.unhandled ++ [e] }

/-- One turn of the service worker's event loop. -/
def step (c : Controller) : Event → Controller
  | Event.click tabId => onClicked c tabId
  | Event.settle req outcome => onSettle c req outcome

/-- The events handled in order. -/
def run (c : Controller) (evs : List Event) : Controller := evs.foldl step c

/-- Number of activations among the events. -/
def clicks : List Event → Nat
  | [] => 0
  | Event.click _ :: evs => clicks evs + 1
  | Event.settle _ _ :: evs => clicks evs

/-- No event of the list settles injection `req`. -/
def leavesPending (req : Nat) : List Event → Bool
  | [] => true
  | Event.click _ :: evs => leavesPending req evs
  | Event.settle r _ :: evs => r != req && leavesPending req evs

/-- One activation handled to its end before anything else happens: the click
on `tabId`, then its own injection settling with `outcome`. -/
def activate (c : Controller) (a : Nat × InjectionOutcome) : Controller :=
  onSettle (onClicked c a.1) c.injections a.2

/-- Activations handled one after another. -/
def activations (c : Controller) (acts : List (Nat × InjectionOutcome)) : Controller :=
  acts.foldl activate c

/-- Every pending run waits for an injection that was issued. -/
def Controller.WF (c : Controller) : Prop :=
  ∀ d ∈ c.pending, d.req < c.injections

end Background

end CutoutCamera

namespace CutoutCamera

theorem length_modifyAt {α : Type} (f : α → α) (l : List α) :
    ∀ h : Nat, (modifyAt f l h).length = l.length := by
  induction l with
  | nil => intro h; rfl
  | cons x xs ih =>
    intro h
    cases h with
    | zero => rfl
    | succ h => simp [modifyAt, ih]

theorem getElem?_modifyAt_self {α : Type} (f : α → α) (l : List α) :
    ∀ h : Nat, (modifyAt f l h)[h]? = (l[h]?).map f := by
  induction l with
  | nil => intro h; simp [modifyAt]
  | cons x xs ih =>
    intro h
    cases h with
    | zero => simp [modifyAt]
    | succ h => simp [modifyAt, ih]

theorem find_filter_ne {α : Type} (key : α → Nat) (l : List α) (r q : Nat) (h : q ≠ r) :
    (l.filter (fun e => !(key e == q))).find? (fun d => key d == r) =
      l.find? (fun d => key d == r) := by
  induction l with
  | nil => rfl
  | cons x xs ih =>
    by_cases hq : key x = q
    · have hr : ¬ key x = r := by omega
      simp [List.filter_cons, List.find?_cons, hq, hr, ih, h]
    · by_cases hr : key x = r
      · have hrq : ¬ r = q := fun e => h e.symm
        simp [List.filter_cons, List.find?_cons, hr, hrq]
      · simp [List.filter_cons, List.find?_cons, hq, hr, ih]

theorem filter_fresh {α : Type} (key : α → Nat) (l : List α) (n : Nat)
    (h : ∀ d ∈ l, key d < n) : l.filter (fun e => !(key e == n)) = l := by
  rw [List.filter_eq_self]
  intro d hd
  have := h d hd
  have hne : ¬ key d = n := by omega
  simp [hne]

theorem find_fresh {α : Type} (key : α → Nat) (l : List α) (n : Nat)
    (h : ∀ d ∈ l, key d < n) : l.find? (fun d => key d == n) = none := by
  rw [List.find?_eq_none]
  intro d hd
  have := h d hd
  have hne : ¬ key d = n := by omega
  simp [hne]

namespace Content

theorem onSettle_none (p : Page) (r : Nat) (o : CameraOutcome)
    (h : p.pending.find? (fun c => c.req == r) = none) : onSettle p r o = p := by
  simp only [onSettle, h]

theorem onSettle_granted (p : Page) (r n : Nat) (c : PendingShow)
    (h : p.pending.find? (fun c => c.req == r) = some c) :
    onSettle p r (CameraOutcome.granted n) =
      { p with
        pending := p.pending.filter (fun d => !(d.req == r))
        streams := p.streams ++ [{ tracks := List.replicate n TrackState.live }]
        webcamStream := some p.streams.length
        elements :=
          modifyAt (fun e => { e with playCalls := e.playCalls + 1 })
            (modifyAt (fun e => { e with srcObject := some p.streams.length }) p.elements c.video)
            c.video } := by
  simp only [onSettle, h]
  rfl

theorem onSettle_denied (p : Page) (r : Nat) (err : String) (c : PendingShow)
    (h : p.pending.find? (fun c => c.req == r) = some c) :
    onSettle p r (CameraOutcome.denied err) =
      hideOverlay
        { p with
          pending := p.pending.filter (fun d => !(d.req == r))
          errors := p.errors ++ ["Failed to access webcam: " ++ err] } := by
  simp only [onSettle, h]
  rfl

theorem hideOverlay_webcamStream (p : Page) : (hideOverlay p).webcamStream = none := by
  cases hv : p.webcamVideo <;> cases hs : p.webcamStream <;> simp [hideOverlay, hv, hs]

theorem hideOverlay_webcamVideo (p : Page) : (hideOverlay p).webcamVideo = p.webcamVideo := by
  cases hv : p.webcamVideo <;> cases hs : p.webcamStream <;> simp [hideOverlay, hv, hs]

theorem hideOverlay_pending (p : Page) : (hideOverlay p).pending = p.pending := by
  cases hv : p.webcamVideo <;> cases hs : p.webcamStream <;> simp [hideOverlay, hv, hs]

theorem hideOverlay_requests (p : Page) : (hideOverlay p).requests = p.requests := by
  cases hv : p.webcamVideo <;> cases hs : p.webcamStream <;> simp [hideOverlay, hv, hs]

theorem hideOverlay_unhandled (p : Page) : (hideOverlay p).unhandled = p.unhandled := by
  cases hv : p.webcamVideo <;> cases hs : p.webcamStream <;> simp [hideOverlay, hv, hs]

theorem hideOverlay_body (p : Page) : (hideOverlay p).body = p.body := by
  cases hv : p.webcamVideo <;> cases hs : p.webcamStream <;> simp [hideOverlay, hv, hs]

theorem hideOverlay_elements (p : Page) :
    (hideOverlay p).elements =
      match p.webcamVideo with
      | some v => modifyAt (fun e => { e with display := "none" }) p.elements v
      | none => p.elements := by
  cases hv : p.webcamVideo <;> cases hs : p.webcamStream <;> simp [hideOverlay, hv, hs]

theorem hideOverlay_streams (p : Page) :
    (hideOverlay p).streams =
      match p.webcamStream with
      | some s => modifyAt MediaStream.stopTracks p.streams s
      | none => p.streams := by
  cases hv : p.webcamVideo <;> cases hs : p.webcamStream <;> simp [hideOverlay, hv, hs]

theorem hideOverlay_elements_length (p : Page) :
    (hideOverlay p).elements.length = p.elements.length := by
  rw [hideOverlay_elements]
  cases p.webcamVideo with
  | none => rfl
  | some v => exact length_modifyAt _ _ _

theorem wf_hideOverlay (p : Page) (h : p.WF) : (hideOverlay p).WF := by
  obtain ⟨hp, hu, hv⟩ := h
  refine ⟨?_, ?_, ?_⟩
  · rw [hideOverlay_pending, hideOverlay_requests]; exact hp
  · rw [hideOverlay_unhandled]; exact hu
  · rw [hideOverlay_webcamVideo, hideOverlay_body]
    cases hw : p.webcamVideo with
    | none =>
      rw [hw] at hv
      have he := hideOverlay_elements p
      rw [hw] at he
      exact ⟨he.trans hv.1, hv.2⟩
    | some v =>
      rw [hw] at hv
      exact ⟨hv.1, (hideOverlay_elements_length p).trans hv.2.1, hv.2.2⟩

/-- After `hideOverlay` the element held in `webcamVideo` has display `none`. -/
theorem hideOverlay_display (p : Page) (h : p.WF) (v : Nat) (hv : p.webcamVideo = some v) :
    overlayDisplay (hideOverlay p) = some "none" := by
  have hwf := h.2.2
  rw [hv] at hwf
  obtain ⟨hv0, hlen, _⟩ := hwf
  subst hv0
  unfold overlayDisplay
  rw [hideOverlay_webcamVideo, hv, hideOverlay_elements, hv]
  show Option.map VideoElement.display (modifyAt _ p.elements 0)[0]? = some "none"
  rw [getElem?_modifyAt_self]
  cases he : p.elements with
  | nil => rw [he] at hlen; simp at hlen
  | cons e es => simp

theorem showOverlay_idle (p : Page) (h : p.webcamStream = none) :
    showOverlay p =
      { (getOrCreateOverlay p).2 with
        pending := p.pending ++ [{ req := p.requests, video := (getOrCreateOverlay p).1 }]
        requests := p.requests + 1 } := by
  cases hv : p.webcamVideo <;> simp [showOverlay, getOrCreateOverlay, hv, h]

theorem showOverlay_streaming (p : Page) (s : Nat) (h : p.webcamStream = some s) :
    showOverlay p =
      { (getOrCreateOverlay p).2 with
        elements := modifyAt (fun e => { e with display := "block" })
          (getOrCreateOverlay p).2.elements (getOrCreateOverlay p).1 } := by
  cases hv : p.webcamVideo <;> simp [showOverlay, getOrCreateOverlay, hv, h]

theorem wf_getOrCreateOverlay (p : Page) (h : p.WF) :
    (getOrCreateOverlay p).2.WF ∧ (getOrCreateOverlay p).2.webcamVideo = some 0 ∧
      (getOrCreateOverlay p).1 = 0 := by
  obtain ⟨hp, hu, hv⟩ := h
  cases hw : p.webcamVideo with
  | none =>
    rw [hw] at hv
    simp [getOrCreateOverlay, hw, Page.WF, hv.1, hv.2, hu]
    exact hp
  | some v =>
    rw [hw] at hv
    obtain ⟨hv0, hlen, hb⟩ := hv
    subst hv0
    simp [getOrCreateOverlay, hw, Page.WF, hlen, hb, hu]
    exact hp

theorem wf_congr (p q : Page) (h : p.WF) (hp : ∀ d ∈ q.pending, d.req < q.requests)
    (hu : q.unhandled = p.unhandled) (hv : q.webcamVideo = p.webcamVideo)
    (he : q.elements.length = p.elements.length) (hb : q.body = p.body) : q.WF := by
  refine ⟨hp, hu.trans h.2.1, ?_⟩
  have h3 := h.2.2
  rw [hv, hb]
  cases hw : p.webcamVideo with
  | none =>
    rw [hw] at h3
    refine ⟨?_, h3.2⟩
    apply List.eq_nil_of_length_eq_zero
    rw [he, h3.1]; rfl
  | some v =>
    rw [hw] at h3
    exact ⟨h3.1, he.trans h3.2.1, h3.2.2⟩

theorem wf_showOverlay (p : Page) (h : p.WF) : (showOverlay p).WF := by
  have hg := (wf_getOrCreateOverlay p h).1
  have hpend : (getOrCreateOverlay p).2.pending = p.pending := by
    cases hw : p.webcamVideo <;> simp [getOrCreateOverlay, hw]
  have hreq : (getOrCreateOverlay p).2.requests = p.requests := by
    cases hw : p.webcamVideo <;> simp [getOrCreateOverlay, hw]
  cases hs : p.webcamStream with
  | none =>
    rw [showOverlay_idle p hs]
    apply wf_congr _ _ hg
    · intro d hd
      simp only [List.mem_append, List.mem_singleton] at hd
      show d.req < p.requests + 1
      rcases hd with hd | hd
      · have := h.1 d hd; omega
      · subst hd; simp
    · rfl
    · rfl
    · rfl
    · rfl
  | some s =>
    rw [showOverlay_streaming p s hs]
    apply wf_congr _ _ hg
    · exact hg.1
    · rfl
    · rfl
    · exact length_modifyAt _ _ _
    · rfl

theorem wf_onSettle (p : Page) (r : Nat) (o : CameraOutcome) (h : p.WF) :
    (onSettle p r o).WF := by
  cases hf : p.pending.find? (fun c => c.req == r) with
  | none => rw [onSettle_none p r o hf]; exact h
  | some c =>
    have key : ∀ d ∈ p.pending.filter (fun e => !(e.req == r)), d.req < p.requests :=
      fun d hd => h.1 d (List.mem_of_mem_filter hd)
    cases o with
    | granted n =>
      rw [onSettle_granted p r n c hf]
      apply wf_congr p _ h
      · exact key
      · rfl
      · rfl
      · show (modifyAt _ (modifyAt _ p.elements c.video) c.video).length = _
        rw [length_modifyAt, length_modifyAt]
      · rfl
    | denied err =>
      rw [onSettle_denied p r err c hf]
      apply wf_hideOverlay
      apply wf_congr p _ h
      · exact key
      · rfl
      · rfl
      · rfl
      · rfl

theorem wf_step (p : Page) (e : Event) (h : p.WF) : (step p e).WF := by
  cases e with
  | message m =>
    cases m with
    | none => exact h
    | some msg =>
      show (onMessage p (some msg)).WF
      unfold onMessage
      simp only
      split
      · exact wf_showOverlay p h
      · split
        · exact wf_hideOverlay p h
        · exact h
  | settle r o => exact wf_onSettle p r o h

theorem wf_init : Page.init.WF := by
  refine ⟨?_, rfl, ?_⟩
  · intro d hd; simp [Page.init] at hd
  · simp [Page.init]

theorem wf_run (evs : List Event) : ∀ p : Page, p.WF → (run p evs).WF := by
  induction evs with
  | nil => intro p h; exact h
  | cons e evs ih => intro p h; exact ih (step p e) (wf_step p e h)

theorem getOrCreateOverlay_held (p : Page) (v : Nat) (h : p.webcamVideo = some v) :
    getOrCreateOverlay p = (v, p) := by
  simp [getOrCreateOverlay, h]

theorem showOverlay_webcamVideo (p : Page) (v : Nat) (h : p.webcamVideo = some v) :
    (showOverlay p).webcamVideo = some v := by
  cases hs : p.webcamStream with
  | none => rw [showOverlay_idle p hs, getOrCreateOverlay_held p v h]; exact h
  | some s => rw [showOverlay_streaming p s hs, getOrCreateOverlay_held p v h]; exact h

theorem onSettle_webcamVideo (p : Page) (r : Nat) (o : CameraOutcome) :
    (onSettle p r o).webcamVideo = p.webcamVideo := by
  cases hf : p.pending.find? (fun c => c.req == r) with
  | none => rw [onSettle_none p r o hf]
  | some c =>
    cases o with
    | granted n => rw [onSettle_granted p r n c hf]
    | denied err => rw [onSettle_denied p r err c hf, hideOverlay_webcamVideo]

theorem step_webcamVideo (p : Page) (e : Event) (v : Nat) (h : p.webcamVideo = some v) :
    (step p e).webcamVideo = some v := by
  cases e with
  | message m =>
    cases m with
    | none => exact h
    | some msg =>
      show (onMessage p (some msg)).webcamVideo = some v
      unfold onMessage
      simp only
      split
      · exact showOverlay_webcamVideo p v h
      · split
        · rw [hideOverlay_webcamVideo]; exact h
        · exact h
  | settle r o => show (onSettle p r o).webcamVideo = some v; rw [onSettle_webcamVideo]; exact h

theorem run_webcamVideo (evs : List Event) :
    ∀ (p : Page) (v : Nat), p.webcamVideo = some v → (run p evs).webcamVideo = some v := by
  induction evs with
  | nil => intro p v h; exact h
  | cons e evs ih => intro p v h; exact ih (step p e) v (step_webcamVideo p e v h)

/-- A show intent either leaves the pending calls alone or adds the call it
just suspended, for a fresh request. -/
theorem showOverlay_pending (p : Page) :
    ((showOverlay p).pending = p.pending ∧ (showOverlay p).requests = p.requests) ∨
    (∃ v, (showOverlay p).pending = p.pending ++ [{ req := p.requests, video := v }] ∧
      (showOverlay p).requests = p.requests + 1) := by
  cases hs : p.webcamStream with
  | none =>
    right
    refine ⟨(getOrCreateOverlay p).1, ?_⟩
    rw [showOverlay_idle p hs]
    exact ⟨rfl, rfl⟩
  | some s =>
    left
    rw [showOverlay_streaming p s hs]
    cases hw : p.webcamVideo <;> simp [getOrCreateOverlay, hw]

theorem onSettle_requests (p : Page) (r : Nat) (o : CameraOutcome) :
    (onSettle p r o).requests = p.requests := by
  cases hf : p.pending.find? (fun c => c.req == r) with
  | none => rw [onSettle_none p r o hf]
  | some c =>
    cases o with
    | granted n => rw [onSettle_granted p r n c hf]
    | denied err => rw [onSettle_denied p r err c hf, hideOverlay_requests]

theorem onSettle_pending (p : Page) (r : Nat) (o : CameraOutcome) (c : PendingShow)
    (hf : p.pending.find? (fun c => c.req == r) = some c) :
    (onSettle p r o).pending = p.pending.filter (fun d => !(d.req == r)) := by
  cases o with
  | granted n => rw [onSettle_granted p r n c hf]
  | denied err => rw [onSettle_denied p r err c hf, hideOverlay_pending]

/-- A suspended call stays pending, with its element, while no event settles
its camera request. -/
theorem find_run (r : Nat) (c : PendingShow) (mid : List Event) :
    ∀ p : Page, r < p.requests →
      p.pending.find? (fun d => d.req == r) = some c →
      leavesPending r mid = true →
      (run p mid).pending.find? (fun d => d.req == r) = some c := by
  induction mid with
  | nil => intro p _ hf _; exact hf
  | cons e mid ih =>
    intro p hr hf hm
    have hrun : run p (e :: mid) = run (step p e) mid := rfl
    rw [hrun]
    cases e with
    | message m =>
      have hm2 : leavesPending r mid = true := by simpa [leavesPending] using hm
      cases m with
      | none => exact ih p hr hf hm2
      | some msg =>
        have hstep : step p (Event.message (some msg)) = onMessage p (some msg) := rfl
        rw [hstep]
        unfold onMessage
        simp only
        split
        · rcases showOverlay_pending p with ⟨h1, h2⟩ | ⟨v, h1, h2⟩
          · exact ih _ (by rw [h2]; exact hr) (by rw [h1]; exact hf) hm2
          · apply ih _ (by rw [h2]; omega) _ hm2
            rw [h1, List.find?_append, hf]
            rfl
        · split
          · exact ih _ (by rw [hideOverlay_requests]; exact hr)
              (by rw [hideOverlay_pending]; exact hf) hm2
          · exact ih p hr hf hm2
    | settle q o =>
      simp only [leavesPending, Bool.and_eq_true, bne_iff_ne, ne_eq] at hm
      have hstep : step p (Event.settle q o) = onSettle p q o := rfl
      rw [hstep]
      apply ih _ (by rw [onSettle_requests]; exact hr) _ hm.2
      cases hq : p.pending.find? (fun d => d.req == q) with
      | none => rw [onSettle_none p q o hq]; exact hf
      | some d0 =>
        rw [onSettle_pending p q o d0 hq, find_filter_ne PendingShow.req _ _ _ hm.1]
        exact hf

theorem find_filter_self {α : Type} (key : α → Nat) (l : List α) (r : Nat) :
    (l.filter (fun e => !(key e == r))).find? (fun d => key d == r) = none := by
  rw [List.find?_eq_none]
  intro d hd
  have := (List.mem_filter.mp hd).2
  simpa using this

/-- A show intent handled while no stream is held suspends a call for request
`p.requests` on the overlay element. -/
theorem showOverlay_find (p : Page) (h : p.WF) (hs : p.webcamStream = none) :
    (showOverlay p).pending.find? (fun d => d.req == p.requests) =
      some { req := p.requests, video := 0 } := by
  rw [showOverlay_idle p hs]
  show (p.pending ++ [_]).find? _ = _
  rw [List.find?_append, find_fresh PendingShow.req p.pending p.requests h.1,
    (wf_getOrCreateOverlay p h).2.2]
  simp

/-- Handling the rejection of a pending camera request leaves the overlay
hidden, no stream held and no rejection escaped. -/
theorem onSettle_denied_hidden (p : Page) (h : p.WF) (r : Nat) (err : String) (c : PendingShow)
    (v : Nat) (hv : p.webcamVideo = some v)
    (hf : p.pending.find? (fun d => d.req == r) = some c) :
    overlayDisplay (onSettle p r (CameraOutcome.denied err)) = some "none" ∧
    (onSettle p r (CameraOutcome.denied err)).webcamStream = none ∧
    (onSettle p r (CameraOutcome.denied err)).unhandled = [] ∧
    (onSettle p r (CameraOutcome.denied err)).pending.find? (fun d => d.req == r) = none := by
  have hwf := wf_onSettle p r (CameraOutcome.denied err) h
  refine ⟨?_, ?_, hwf.2.1, ?_⟩
  · rw [onSettle_denied p r err c hf]
    refine hideOverlay_display _ ?_ v hv
    apply wf_congr p _ h
    · exact fun d hd => h.1 d (List.mem_of_mem_filter hd)
    · rfl
    · rfl
    · rfl
    · rfl
  · rw [onSettle_denied p r err c hf, hideOverlay_webcamStream]
  · rw [onSettle_pending p r _ c hf]
    exact find_filter_self PendingShow.req _ _

theorem stopTracks_active (s : MediaStream) : s.stopTracks.active = false := by
  simp [MediaStream.stopTracks, MediaStream.active, TrackState.stop]

theorem modifyAt_append_length {α : Type} (f : α → α) (l : List α) (x : α) :
    modifyAt f (l ++ [x]) l.length = l ++ [f x] := by
  induction l with
  | nil => rfl
  | cons y ys ih => simp [modifyAt, ih]

theorem showOverlay_streams (p : Page) : (showOverlay p).streams = p.streams := by
  cases hv : p.webcamVideo <;> cases hs : p.webcamStream <;>
    simp [showOverlay, getOrCreateOverlay, hv, hs]

theorem run_append (a b : List Event) (p : Page) : run p (a ++ b) = run (run p a) b := by
  simp [run, List.foldl_append]

theorem mem_trace_self (evs : List Event) (p : Page) : p ∈ trace p evs := by
  cases evs <;> simp [trace]

theorem mem_trace_append (a : List Event) :
    ∀ (b : List Event) (p q : Page),
      q ∈ trace p (a ++ b) → q ∈ trace p a ∨ q ∈ trace (run p a) b := by
  induction a with
  | nil => intro b p q h; right; exact h
  | cons e a ih =>
    intro b p q h
    simp only [List.cons_append, trace, List.mem_cons] at h
    rcases h with h | h
    · left; rw [h]; exact mem_trace_self _ _
    · rcases ih b (step p e) q h with h2 | h2
      · left; simp only [trace, List.mem_cons]; right; exact h2
      · right; exact h2

theorem run_cycle (p : Page) (k n : Nat) :
    run p (cycle k n) =
      hideOverlay (onSettle (showOverlay p) k (CameraOutcome.granted n)) := by
  simp [run, cycle, step, showIntent, hideIntent, onMessage]

theorem trace_cycle (p : Page) (k n : Nat) :
    trace p (cycle k n) =
      [p, showOverlay p, onSettle (showOverlay p) k (CameraOutcome.granted n),
        hideOverlay (onSettle (showOverlay p) k (CameraOutcome.granted n))] := by
  simp [trace, cycle, step, showIntent, hideIntent, onMessage]

/-- One show/hide cycle from an idle page: the page is idle again and hidden,
and never more than one stream captures on the way. -/
theorem cycle_idle (p : Page) (k n : Nat) (h : p.Idle k) :
    (run p (cycle k n)).Idle (k + 1) ∧
    overlayDisplay (run p (cycle k n)) = some "none" ∧
    ∀ q ∈ trace p (cycle k n), activeStreams q ≤ 1 := by
  obtain ⟨hwf, hs, hpend, hreq, hact, hlen⟩ := h
  have hwf1 := wf_showOverlay p hwf
  have hfind := showOverlay_find p hwf hs
  rw [hreq] at hfind
  have hwf2 := wf_onSettle _ k (CameraOutcome.granted n) hwf1
  have hvid1 : (showOverlay p).webcamVideo = some 0 := by
    rw [showOverlay_idle p hs]
    exact (wf_getOrCreateOverlay p hwf).2.1
  have hvid2 : (onSettle (showOverlay p) k (CameraOutcome.granted n)).webcamVideo = some 0 := by
    rw [onSettle_webcamVideo]; exact hvid1
  have hstr2 : (onSettle (showOverlay p) k (CameraOutcome.granted n)).streams =
      p.streams ++ [{ tracks := List.replicate n TrackState.live }] := by
    rw [onSettle_granted _ k n _ hfind]
    show (showOverlay p).streams ++ _ = _
    rw [showOverlay_streams]
  have hws2 : (onSettle (showOverlay p) k (CameraOutcome.granted n)).webcamStream =
      some p.streams.length := by
    rw [onSettle_granted _ k n _ hfind]
    show some (showOverlay p).streams.length = _
    rw [showOverlay_streams]
  have hact1 : activeStreams (showOverlay p) = 0 := by
    unfold activeStreams; rw [showOverlay_streams]; exact hact
  have hact2 : activeStreams (onSettle (showOverlay p) k (CameraOutcome.granted n)) ≤ 1 := by
    unfold activeStreams at hact ⊢
    rw [hstr2, List.countP_append, hact]
    simp only [List.countP_cons, List.countP_nil]
    split <;> omega
  have hact3 :
      activeStreams (hideOverlay (onSettle (showOverlay p) k (CameraOutcome.granted n))) = 0 := by
    unfold activeStreams at hact ⊢
    rw [hideOverlay_streams, hws2, hstr2]
    show List.countP _ (modifyAt _ _ _) = 0
    rw [modifyAt_append_length, List.countP_append, hact]
    simp [stopTracks_active]
  have hpend3 :
      (hideOverlay (onSettle (showOverlay p) k (CameraOutcome.granted n))).pending = [] := by
    rw [hideOverlay_pending, onSettle_pending _ k _ _ hfind, showOverlay_idle p hs]
    simp [hpend, hreq]
  have hreq3 :
      (hideOverlay (onSettle (showOverlay p) k (CameraOutcome.granted n))).requests = k + 1 := by
    rw [hideOverlay_requests, onSettle_requests, showOverlay_idle p hs]
    show p.requests + 1 = k + 1
    rw [hreq]
  have hlen3 :
      (hideOverlay (onSettle (showOverlay p) k (CameraOutcome.granted n))).streams.length =
        k + 1 := by
    rw [hideOverlay_streams, hws2, hstr2]
    show (modifyAt _ _ _).length = k + 1
    rw [length_modifyAt, List.length_append, hlen]
    rfl
  rw [run_cycle, trace_cycle]
  refine ⟨⟨wf_hideOverlay _ hwf2, hideOverlay_webcamStream _, hpend3, hreq3, hact3, hlen3⟩,
    hideOverlay_display _ hwf2 0 hvid2, ?_⟩
  intro q hq
  simp only [List.mem_cons, List.mem_singleton, List.not_mem_nil, or_false] at hq
  rcases hq with hq | hq | hq | hq <;> subst hq <;> omega

/-- Any number of show/hide cycles from a fresh page: idle at the end, and never
more than one stream capturing on the way. -/
theorem cycles_idle (tracks : Nat → Nat) (N : Nat) :
    (run Page.init (cycles tracks N)).Idle N ∧
    ∀ q ∈ trace Page.init (cycles tracks N), activeStreams q ≤ 1 := by
  induction N with
  | zero =>
    refine ⟨⟨wf_init, rfl, rfl, rfl, rfl, rfl⟩, ?_⟩
    intro q hq
    simp only [cycles, trace, List.mem_singleton] at hq
    subst hq
    decide
  | succ N ih =>
    have hc := cycle_idle _ N (tracks N) ih.1
    simp only [cycles]
    rw [run_append]
    refine ⟨hc.1, ?_⟩
    intro q hq
    rcases mem_trace_append _ _ _ _ hq with h | h
    · exact ih.2 q h
    · exact hc.2.2 q h

end Content

namespace Background

theorem injection_unknown (c : Controller) (r : Nat) (o : InjectionOutcome)
    (h : c.pending.find? (fun d => d.req == r) = none) : onSettle c r o = c := by
  simp only [onSettle, h]

theorem onSettle_injected (c : Controller) (r : Nat) (d : PendingClick)
    (h : c.pending.find? (fun d => d.req == r) = some d) :
    onSettle c r InjectionOutcome.injected =
      { c with
        pending := c.pending.filter (fun e => !(e.req == r))
        sent := c.sent ++ [(d.tabId, { action := if c.overlayEnabled then "show" else "hide" })]
        badgeText := if c.overlayEnabled then "ON" else "" } := by
  simp only [onSettle, h]
  rfl

theorem onSettle_failed (c : Controller) (r : Nat) (d : PendingClick) (err : String)
    (h : c.pending.find? (fun d => d.req == r) = some d) :
    onSettle c r (InjectionOutcome.failed err) =
      { c with
        pending := c.pending.filter (fun e => !(e.req == r))
        errors := c.errors ++ ["Failed to toggle webcam overlay: " ++ err] } := by
  simp only [onSettle, h]
  rfl

theorem onSettle_overlayEnabled (c : Controller) (r : Nat) (o : InjectionOutcome) :
    (onSettle c r o).overlayEnabled = c.overlayEnabled := by
  cases h : c.pending.find? (fun d => d.req == r) with
  | none => rw [injection_unknown c r o h]
  | some d =>
    cases o with
    | injected => rw [onSettle_injected c r d h]
    | failed err => rw [onSettle_failed c r d err h]

theorem run_overlayEnabled (evs : List Event) :
    ∀ c : Controller,
      (run c evs).overlayEnabled = xor c.overlayEnabled (decide (clicks evs % 2 = 1)) := by
  induction evs with
  | nil => intro c; simp [run, clicks]
  | cons e evs ih =>
    intro c
    have hrun : run c (e :: evs) = run (step c e) evs := rfl
    rw [hrun, ih]
    cases e with
    | click t =>
      have hs : (step c (Event.click t)).overlayEnabled = !c.overlayEnabled := rfl
      rw [hs]
      simp only [clicks]
      rcases Nat.mod_two_eq_zero_or_one (clicks evs) with h | h
      · have h2 : (clicks evs + 1) % 2 = 1 := by omega
        simp [h, h2]
      · have h2 : (clicks evs + 1) % 2 = 0 := by omega
        simp [h, h2]
    | settle r o =>
      have hs : (step c (Event.settle r o)).overlayEnabled = c.overlayEnabled :=
        onSettle_overlayEnabled c r o
      rw [hs]
      simp only [clicks]

theorem ctl_wf_init : Controller.init.WF := by
  intro d hd
  simp [Controller.init] at hd

theorem wf_onClicked (c : Controller) (t : Nat) (h : c.WF) : (onClicked c t).WF := by
  intro d hd
  simp only [onClicked, List.mem_append, List.mem_singleton] at hd
  show d.req < c.injections + 1
  rcases hd with hd | hd
  · have := h d hd; omega
  · subst hd; simp

theorem ctl_wf_onSettle (c : Controller) (r : Nat) (o : InjectionOutcome) (h : c.WF) :
    (onSettle c r o).WF := by
  cases hf : c.pending.find? (fun d => d.req == r) with
  | none => rw [injection_unknown c r o hf]; exact h
  | some d0 =>
    have key : ∀ d ∈ c.pending.filter (fun e => !(e.req == r)), d.req < c.injections :=
      fun d hd => h d (List.mem_of_mem_filter hd)
    cases o with
    | injected => rw [onSettle_injected c r d0 hf]; exact key
    | failed err => rw [onSettle_failed c r d0 err hf]; exact key

theorem ctl_wf_step (c : Controller) (e : Event) (h : c.WF) : (step c e).WF := by
  cases e with
  | click t => exact wf_onClicked c t h
  | settle r o => exact ctl_wf_onSettle c r o h

theorem ctl_wf_run (evs : List Event) : ∀ c : Controller, c.WF → (run c evs).WF := by
  induction evs with
  | nil => intro c h; exact h
  | cons e evs ih => intro c h; exact ih (step c e) (ctl_wf_step c e h)

theorem onSettle_injections (c : Controller) (r : Nat) (o : InjectionOutcome) :
    (onSettle c r o).injections = c.injections := by
  cases h : c.pending.find? (fun d => d.req == r) with
  | none => rw [injection_unknown c r o h]
  | some d =>
    cases o with
    | injected => rw [onSettle_injected c r d h]
    | failed err => rw [onSettle_failed c r d err h]

/-- A pending run stays pending, with its tab, while no event settles its
injection. -/
theorem ctl_find_run (r : Nat) (d : PendingClick) (mid : List Event) :
    ∀ c : Controller, c.WF → r < c.injections →
      c.pending.find? (fun d => d.req == r) = some d →
      leavesPending r mid = true →
      (run c mid).pending.find? (fun d => d.req == r) = some d := by
  induction mid with
  | nil => intro c _ _ hf _; exact hf
  | cons e mid ih =>
    intro c hwf hr hf hm
    have hrun : run c (e :: mid) = run (step c e) mid := rfl
    rw [hrun]
    cases e with
    | click t =>
      apply ih _ (ctl_wf_step c _ hwf)
      · show r < c.injections + 1
        omega
      · show (c.pending ++ [_]).find? _ = some d
        rw [List.find?_append, hf]
        rfl
      · simpa [leavesPending] using hm
    | settle q o =>
      simp only [leavesPending, Bool.and_eq_true, bne_iff_ne, ne_eq] at hm
      apply ih _ (ctl_wf_step c _ hwf)
      · show r < (onSettle c q o).injections
        rw [onSettle_injections]; exact hr
      · show (onSettle c q o).pending.find? _ = some d
        cases hq : c.pending.find? (fun d => d.req == q) with
        | none => rw [injection_unknown c q o hq]; exact hf
        | some d0 =>
          cases o with
          | injected =>
            rw [onSettle_injected c q d0 hq]
            show (c.pending.filter _).find? _ = some d
            rw [find_filter_ne PendingClick.req _ _ _ hm.1]; exact hf
          | failed err =>
            rw [onSettle_failed c q d0 err hq]
            show (c.pending.filter _).find? _ = some d
            rw [find_filter_ne PendingClick.req _ _ _ hm.1]; exact hf
      · exact hm.2

/-- The run started by a click is pending right after it. -/
theorem find_onClicked (c : Controller) (t : Nat) (h : c.WF) :
    (onClicked c t).pending.find? (fun d => d.req == c.injections) =
      some { req := c.injections, tabId := t } := by
  show (c.pending ++ [_]).find? _ = _
  rw [List.find?_append, find_fresh PendingClick.req c.pending c.injections h]
  simp

theorem activate_injected (c : Controller) (t : Nat) (h : c.pending = []) :
    activate c (t, InjectionOutcome.injected) =
      { c with
        overlayEnabled := !c.overlayEnabled
        injections := c.injections + 1
        sent := c.sent ++ [(t, { action := if !c.overlayEnabled then "show" else "hide" })]
        badgeText := if !c.overlayEnabled then "ON" else "" } := by
  have hwf : c.WF := by intro d hd; simp [h] at hd
  show onSettle (onClicked c t) c.injections _ = _
  rw [onSettle_injected _ _ _ (find_onClicked c t hwf)]
  simp [onClicked, h]

theorem activate_failed (c : Controller) (t : Nat) (err : String) (h : c.pending = []) :
    activate c (t, InjectionOutcome.failed err) =
      { c with
        overlayEnabled := !c.overlayEnabled
        injections := c.injections + 1
        errors := c.errors ++ ["Failed to toggle webcam overlay: " ++ err] } := by
  have hwf : c.WF := by intro d hd; simp [h] at hd
  show onSettle (onClicked c t) c.injections _ = _
  rw [onSettle_failed _ _ _ err (find_onClicked c t hwf)]
  simp [onClicked, h]

theorem activations_inv (acts : List (Nat × InjectionOutcome)) :
    ∀ c : Controller, c.pending = [] →
      (activations c acts).pending = [] ∧
      (activations c acts).overlayEnabled =
        xor c.overlayEnabled (decide (acts.length % 2 = 1)) := by
  induction acts with
  | nil => intro c h; simp [activations, h]
  | cons a acts ih =>
    intro c h
    have hrun : activations c (a :: acts) = activations (activate c a) acts := rfl
    have hstep : (activate c a).pending = [] ∧ (activate c a).overlayEnabled = !c.overlayEnabled := by
      obtain ⟨t, o⟩ := a
      cases o with
      | injected => rw [activate_injected c t h]; simp [h]
      | failed err => rw [activate_failed c t err h]; simp [h]
    rw [hrun]
    refine ⟨(ih _ hstep.1).1, ?_⟩
    rw [(ih _ hstep.1).2, hstep.2]
    rcases Nat.mod_two_eq_zero_or_one acts.length with h2 | h2
    · have h3 : (acts.length + 1) % 2 = 1 := by omega
      simp [h2, h3]
    · have h3 : (acts.length + 1) % 2 = 0 := by omega
      simp [h2, h3]

end Background

/-- C1 (the code at the failing input): after a successful show and a hide the
page holds no stream and has no request pending; a further show intent whose
camera request resolves then attaches the resolved stream (handle 1, still
capturing) to the overlay element, but the element keeps display `none`. -/
theorem show_after_hide_stays_hidden :
    (Content.run Content.Page.init
        [Content.showIntent, Content.Event.settle 0 (Content.CameraOutcome.granted 1),
          Content.hideIntent]).webcamStream = none ∧
    (Content.run Content.Page.init
        [Content.showIntent, Content.Event.settle 0 (Content.CameraOutcome.granted 1),
          Content.hideIntent]).pending = [] ∧
    Content.activeStreams (Content.run Content.Page.init
        [Content.showIntent, Content.Event.settle 0 (Content.CameraOutcome.granted 1),
          Content.hideIntent]) = 0 ∧
    (Content.run Content.Page.init
        [Content.showIntent, Content.Event.settle 0 (Content.CameraOutcome.granted 1),
          Content.hideIntent, Content.showIntent,
          Content.Event.settle 1 (Content.CameraOutcome.granted 1)]).webcamStream = some 1 ∧
    Content.overlaySrc (Content.run Content.Page.init
        [Content.showIntent, Content.Event.settle 0 (Content.CameraOutcome.granted 1),
          Content.hideIntent, Content.showIntent,
          Content.Event.settle 1 (Content.CameraOutcome.granted 1)]) = some 1 ∧
    (Content.run Content.Page.init
        [Content.showIntent, Content.Event.settle 0 (Content.CameraOutcome.granted 1),
          Content.hideIntent, Content.showIntent,
          Content.Event.settle 1 (Content.CameraOutcome.granted 1)]).streams =
      [{ tracks := [Content.TrackState.ended] }, { tracks := [Content.TrackState.live] }] ∧
    Content.overlayDisplay (Content.run Content.Page.init
        [Content.showIntent, Content.Event.settle 0 (Content.CameraOutcome.granted 1),
          Content.hideIntent, Content.showIntent,
          Content.Event.settle 1 (Content.CameraOutcome.granted 1)]) = some "none" := by
  decide

/-- C2 (the code at the failing input): from a fresh page, a show intent, a
hide intent handled while the camera request is pending, then the request
resolving with a one-track stream: the element has display `none`, but
`webcamStream` holds the resolved stream, it is attached to the element and its
track was never stopped. -/
theorem hide_while_pending_keeps_stream :
    Content.overlayDisplay (Content.run Content.Page.init
        [Content.showIntent, Content.hideIntent,
          Content.Event.settle 0 (Content.CameraOutcome.granted 1)]) = some "none" ∧
    (Content.run Content.Page.init
        [Content.showIntent, Content.hideIntent,
          Content.Event.settle 0 (Content.CameraOutcome.granted 1)]).webcamStream = some 0 ∧
    Content.overlaySrc (Content.run Content.Page.init
        [Content.showIntent, Content.hideIntent,
          Content.Event.settle 0 (Content.CameraOutcome.granted 1)]) = some 0 ∧
    (Content.run Content.Page.init
        [Content.showIntent, Content.hideIntent,
          Content.Event.settle 0 (Content.CameraOutcome.granted 1)]).streams =
      [{ tracks := [Content.TrackState.live] }] ∧
    Content.activeStreams (Content.run Content.Page.init
        [Content.showIntent, Content.hideIntent,
          Content.Event.settle 0 (Content.CameraOutcome.granted 1)]) = 1 := by
  decide

/-- C3 (the code at the failing input): from a fresh page, two show intents, the
second handled while the first camera request is pending, then both requests
resolving with one-track streams: two camera requests were issued, both
streams still capture, `webcamStream` holds only the second, and one overlay
element exists, visible. -/
theorem overlapping_shows_acquire_twice :
    (Content.run Content.Page.init
        [Content.showIntent, Content.showIntent,
          Content.Event.settle 0 (Content.CameraOutcome.granted 1),
          Content.Event.settle 1 (Content.CameraOutcome.granted 1)]).requests = 2 ∧
    Content.activeStreams (Content.run Content.Page.init
        [Content.showIntent, Content.showIntent,
          Content.Event.settle 0 (Content.CameraOutcome.granted 1),
          Content.Event.settle 1 (Content.CameraOutcome.granted 1)]) = 2 ∧
    (Content.run Content.Page.init
        [Content.showIntent, Content.showIntent,
          Content.Event.settle 0 (Content.CameraOutcome.granted 1),
          Content.Event.settle 1 (Content.CameraOutcome.granted 1)]).webcamStream = some 1 ∧
    (Content.run Content.Page.init
        [Content.showIntent, Content.showIntent,
          Content.Event.settle 0 (Content.CameraOutcome.granted 1),
          Content.Event.settle 1 (Content.CameraOutcome.granted 1)]).elements.length = 1 ∧
    Content.overlayDisplay (Content.run Content.Page.init
        [Content.showIntent, Content.showIntent,
          Content.Event.settle 0 (Content.CameraOutcome.granted 1),
          Content.Event.settle 1 (Content.CameraOutcome.granted 1)]) = some "" := by
  decide

/-- C4: from a fresh page, for every N >= 1 and whatever number of tracks each
resolved stream has, N repetitions of [show intent, its camera request
resolves with a stream, hide intent] issue N requests and receive N streams,
and end with no stream capturing, `webcamStream` null and the overlay element
at display `none`; in no state passed through on the way does more than one
stream capture. -/
theorem show_hide_cycles (tracks : Nat → Nat) (N : Nat) (hN : 1 ≤ N) :
    (Content.run Content.Page.init (Content.cycles tracks N)).requests = N ∧
    (Content.run Content.Page.init (Content.cycles tracks N)).streams.length = N ∧
    Content.activeStreams (Content.run Content.Page.init (Content.cycles tracks N)) = 0 ∧
    (Content.run Content.Page.init (Content.cycles tracks N)).webcamStream = none ∧
    Content.overlayDisplay (Content.run Content.Page.init (Content.cycles tracks N)) =
      some "none" ∧
    ∀ q ∈ Content.trace Content.Page.init (Content.cycles tracks N),
      Content.activeStreams q ≤ 1 := by
  have h := Content.cycles_idle tracks N
  obtain ⟨⟨_, hs, _, hreq, hact, hlen⟩, htr⟩ := h
  refine ⟨hreq, hlen, hact, hs, ?_, htr⟩
  cases N with
  | zero => omega
  | succ M =>
    have hc := Content.cycle_idle _ M (tracks M) (Content.cycles_idle tracks M).1
    simp only [Content.cycles]
    rw [Content.run_append]
    exact hc.2.1

/-- C4 at a concrete run: two cycles with one-track streams. -/
theorem show_hide_cycles_witness :
    1 ≤ 2 ∧
    Content.activeStreams (Content.run Content.Page.init (Content.cycles (fun _ => 1) 2)) = 0 ∧
    (Content.run Content.Page.init (Content.cycles (fun _ => 1) 2)).webcamStream = none ∧
    Content.overlayDisplay (Content.run Content.Page.init (Content.cycles (fun _ => 1) 2)) =
      some "none" :=
  ⟨by decide,
    (show_hide_cycles (fun _ => 1) 2 (by decide)).2.2.1,
    (show_hide_cycles (fun _ => 1) 2 (by decide)).2.2.2.1,
    (show_hide_cycles (fun _ => 1) 2 (by decide)).2.2.2.2.1⟩

/-- C5: in every reachable state of the page in which no stream is held, a
show intent suspends a call of `showOverlay` on a camera request; when that
request is rejected (whatever other events were handled while it was
pending), the call resumes, the rejection is caught (nothing escapes, the call
is no longer pending), and the page ends hidden: the overlay element has
display `none` and `webcamStream` is null. -/
theorem rejected_show_ends_hidden (evs mid : List Content.Event) (err : String)
    (hidle : (Content.run Content.Page.init evs).webcamStream = none)
    (hmid : Content.leavesPending (Content.run Content.Page.init evs).requests mid = true) :
    (Content.run (Content.step (Content.run Content.Page.init evs) Content.showIntent)
        mid).pending.find? (fun d => d.req == (Content.run Content.Page.init evs).requests) =
      some { req := (Content.run Content.Page.init evs).requests, video := 0 } ∧
    Content.overlayDisplay
        (Content.step
          (Content.run (Content.step (Content.run Content.Page.init evs) Content.showIntent) mid)
          (Content.Event.settle (Content.run Content.Page.init evs).requests
            (Content.CameraOutcome.denied err))) = some "none" ∧
    (Content.step
        (Content.run (Content.step (Content.run Content.Page.init evs) Content.showIntent) mid)
        (Content.Event.settle (Content.run Content.Page.init evs).requests
          (Content.CameraOutcome.denied err))).webcamStream = none ∧
    (Content.step
        (Content.run (Content.step (Content.run Content.Page.init evs) Content.showIntent) mid)
        (Content.Event.settle (Content.run Content.Page.init evs).requests
          (Content.CameraOutcome.denied err))).unhandled = [] ∧
    (Content.step
        (Content.run (Content.step (Content.run Content.Page.init evs) Content.showIntent) mid)
        (Content.Event.settle (Content.run Content.Page.init evs).requests
          (Content.CameraOutcome.denied err))).pending.find?
        (fun d => d.req == (Content.run Content.Page.init evs).requests) = none := by
  have hwf := Content.wf_run evs _ Content.wf_init
  have hshow : Content.step (Content.run Content.Page.init evs) Content.showIntent =
      Content.showOverlay (Content.run Content.Page.init evs) := by
    simp [Content.step, Content.showIntent, Content.onMessage]
  rw [hshow]
  have hwf1 := Content.wf_showOverlay _ hwf
  have hreq : (Content.showOverlay (Content.run Content.Page.init evs)).requests =
      (Content.run Content.Page.init evs).requests + 1 := by
    rw [Content.showOverlay_idle _ hidle]
  have hvid : (Content.showOverlay (Content.run Content.Page.init evs)).webcamVideo = some 0 := by
    rw [Content.showOverlay_idle _ hidle]
    exact (Content.wf_getOrCreateOverlay _ hwf).2.1
  have hfind := Content.find_run _ _ mid _ (by rw [hreq]; exact Nat.lt_succ_self _)
    (Content.showOverlay_find _ hwf hidle) hmid
  exact ⟨hfind, Content.onSettle_denied_hidden _ (Content.wf_run mid _ hwf1) _ err _ 0
    (Content.run_webcamVideo mid _ 0 hvid) hfind⟩

/-- C5 at a concrete run: after a completed show/hide cycle, a show intent, a
second show intent while the request is pending, then the first request is
rejected. -/
theorem rejected_show_ends_hidden_witness :
    Content.overlayDisplay
        (Content.run Content.Page.init
          [Content.showIntent, Content.Event.settle 0 (Content.CameraOutcome.granted 1),
            Content.hideIntent, Content.showIntent, Content.showIntent,
            Content.Event.settle 1 (Content.CameraOutcome.denied "NotAllowedError")]) =
      some "none" :=
  (rejected_show_ends_hidden
    [Content.showIntent, Content.Event.settle 0 (Content.CameraOutcome.granted 1),
      Content.hideIntent]
    [Content.showIntent] "NotAllowedError" (by decide) (by decide)).2.1

/-- C10: in every reachable state of the page at most one overlay element has
been created and appended to the document. `getOrCreateOverlay` creates and
appends one only when `webcamVideo` is null (and then holds it); when an
element is held it returns that element and changes nothing, and the element
stays held through all later events, so every later call returns it too. -/
theorem at_most_one_overlay (evs more : List Content.Event) :
    (Content.run Content.Page.init evs).elements.length ≤ 1 ∧
    (Content.run Content.Page.init evs).body.length ≤ 1 ∧
    match (Content.run Content.Page.init evs).webcamVideo with
    | none =>
      (Content.run Content.Page.init evs).elements = [] ∧
      (Content.getOrCreateOverlay (Content.run Content.Page.init evs)).2.elements.length = 1 ∧
      (Content.getOrCreateOverlay (Content.run Content.Page.init evs)).2.body.length = 1 ∧
      (Content.getOrCreateOverlay (Content.run Content.Page.init evs)).2.webcamVideo =
        some (Content.getOrCreateOverlay (Content.run Content.Page.init evs)).1
    | some v =>
      Content.getOrCreateOverlay (Content.run Content.Page.init evs) =
        (v, Content.run Content.Page.init evs) ∧
      Content.getOrCreateOverlay (Content.run (Content.run Content.Page.init evs) more) =
        (v, Content.run (Content.run Content.Page.init evs) more) ∧
      (Content.run (Content.run Content.Page.init evs) more).elements.length = 1 := by
  have hwf := Content.wf_run evs _ Content.wf_init
  have hwf2 := Content.wf_run more _ hwf
  have h3 := hwf.2.2
  cases hw : (Content.run Content.Page.init evs).webcamVideo with
  | none =>
    rw [hw] at h3
    simp only
    refine ⟨by rw [h3.1]; simp, by rw [h3.2]; simp, h3.1, ?_, ?_, ?_⟩
    · simp [Content.getOrCreateOverlay, hw, h3.1]
    · simp [Content.getOrCreateOverlay, hw, h3.2]
    · simp [Content.getOrCreateOverlay, hw]
  | some v =>
    rw [hw] at h3
    simp only
    have hv2 := Content.run_webcamVideo more _ v hw
    have h4 := hwf2.2.2
    rw [hv2] at h4
    refine ⟨by rw [h3.2.1], by rw [h3.2.2]; simp, ?_, ?_, h4.2.1⟩
    · exact Content.getOrCreateOverlay_held _ v hw
    · exact Content.getOrCreateOverlay_held _ v hv2

/-- C6: starting from a fresh controller, after any sequence of events of the
service worker (activations on any tabs, injections settling with success or
failure, in any order), `overlayEnabled` is true exactly when the number of
activations handled is odd. -/
theorem toggleState_after_activations (evs : List Background.Event) :
    (Background.run Background.Controller.init evs).overlayEnabled =
      decide (Background.clicks evs % 2 = 1) := by
  rw [Background.run_overlayEnabled]
  simp [Background.Controller.init]

/-- C7 (as stated, refuted): one activation whose injection fails leaves the
badge text empty, although the number of activations handled, 1, is odd. -/
theorem badge_parity_counterexample :
    ¬ ((Background.activations Background.Controller.init
          [(7, Background.InjectionOutcome.failed "No tab with id: 7")]).badgeText =
        (if 1 % 2 = 1 then "ON" else "")) := by
  decide

/-- C7 (amended): starting from a fresh controller, with activations handled
one after another, the badge text after the N-th activation is "ON" for odd N
and empty for even N when the injection of the N-th activation succeeded, and
is what it was before the N-th activation when that injection failed. -/
theorem badge_after_activation (acts : List (Nat × Background.InjectionOutcome))
    (a : Nat × Background.InjectionOutcome) :
    (Background.activations Background.Controller.init (acts ++ [a])).badgeText =
      match a.2 with
      | Background.InjectionOutcome.injected =>
        if (acts.length + 1) % 2 = 1 then "ON" else ""
      | Background.InjectionOutcome.failed _ =>
        (Background.activations Background.Controller.init acts).badgeText := by
  have hinv := Background.activations_inv acts Background.Controller.init rfl
  have happ : Background.activations Background.Controller.init (acts ++ [a]) =
      Background.activate (Background.activations Background.Controller.init acts) a := by
    simp [Background.activations, List.foldl_append]
  rw [happ]
  obtain ⟨t, o⟩ := a
  cases o with
  | injected =>
    rw [Background.activate_injected _ t hinv.1]
    have hen : (Background.activations Background.Controller.init acts).overlayEnabled =
        decide (acts.length % 2 = 1) := by
      rw [hinv.2]; simp [Background.Controller.init]
    show (if !(Background.activations Background.Controller.init acts).overlayEnabled
        then "ON" else "") = _
    rw [hen]
    rcases Nat.mod_two_eq_zero_or_one acts.length with h2 | h2
    · have h3 : (acts.length + 1) % 2 = 1 := by omega
      simp [h2, h3]
    · have h3 : (acts.length + 1) % 2 = 0 := by omega
      simp [h2, h3]
  | failed err =>
    rw [Background.activate_failed _ t err hinv.1]

/-- C8: an activation on tab `t`, handled in any reachable state of the
controller, whose injection later fails (whatever other events are handled
while it is pending): the click inverts `overlayEnabled` and issues the
injection, nothing else; the failure is caught (no rejection escapes), one line
is logged, the run is no longer pending, and no message is sent, the badge and
`overlayEnabled` are left as they were. -/
theorem failed_injection_only_flips (evs : List Background.Event) (t : Nat)
    (mid : List Background.Event) (err : String)
    (hmid : Background.leavesPending
      (Background.run Background.Controller.init evs).injections mid = true) :
    Background.onClicked (Background.run Background.Controller.init evs) t =
      { Background.run Background.Controller.init evs with
        overlayEnabled := !(Background.run Background.Controller.init evs).overlayEnabled
        pending := (Background.run Background.Controller.init evs).pending ++
          [{ req := (Background.run Background.Controller.init evs).injections, tabId := t }]
        injections := (Background.run Background.Controller.init evs).injections + 1 } ∧
    Background.onSettle
        (Background.run
          (Background.onClicked (Background.run Background.Controller.init evs) t) mid)
        (Background.run Background.Controller.init evs).injections
        (Background.InjectionOutcome.failed err) =
      { Background.run
          (Background.onClicked (Background.run Background.Controller.init evs) t) mid with
        pending := (Background.run
          (Background.onClicked (Background.run Background.Controller.init evs) t) mid).pending.filter
            (fun e => !(e.req == (Background.run Background.Controller.init evs).injections))
        errors := (Background.run
          (Background.onClicked (Background.run Background.Controller.init evs) t) mid).errors ++
            ["Failed to toggle webcam overlay: " ++ err] } := by
  have hwf := Background.ctl_wf_run evs _ Background.ctl_wf_init
  refine ⟨rfl, ?_⟩
  have hfind := Background.ctl_find_run _ _ mid _
    (Background.wf_onClicked _ t hwf) (Nat.lt_succ_self _)
    (Background.find_onClicked _ t hwf) hmid
  rw [Background.onSettle_failed _ _ _ err hfind]

/-- C8 at a concrete run: a click on tab 7 of a fresh controller, a second
click on tab 3 while the first injection is pending, then the first injection
fails. -/
theorem failed_injection_only_flips_witness :
    Background.onSettle
        (Background.run (Background.onClicked Background.Controller.init 7)
          [Background.Event.click 3])
        0 (Background.InjectionOutcome.failed "closed") =
      { overlayEnabled := false
        badgeText := ""
        sent := []
        pending := [{ req := 1, tabId := 3 }]
        injections := 2
        errors := ["Failed to toggle webcam overlay: closed"]
        unhandled := [] } :=
  (failed_injection_only_flips [] 7 [Background.Event.click 3] "closed" (by decide)).2

/-- C9 (as stated, refuted): the first activation on tab 7 flips
`overlayEnabled` to true; a second activation is handled while the first
injection is pending; when the first injection succeeds the message sent for
the first activation is `hide`, not `show`. -/
theorem intent_own_flip_counterexample :
    (Background.onClicked Background.Controller.init 7).overlayEnabled = true ∧
    (Background.run Background.Controller.init
        [Background.Event.click 7, Background.Event.click 7,
          Background.Event.settle 0 Background.InjectionOutcome.injected]).sent =
      [(7, { action := "hide" })] ∧
    ¬ ((Background.run Background.Controller.init
        [Background.Event.click 7, Background.Event.click 7,
          Background.Event.settle 0 Background.InjectionOutcome.injected]).sent =
      [(7, { action :=
          if (Background.onClicked Background.Controller.init 7).overlayEnabled
          then "show" else "hide" })]) := by
  decide

/-- C9 (amended): an activation on tab `t`, handled in any reachable state,
whose injection succeeds after any events `mid` handled while it was pending:
the click step sends no message, and the step that completes the injection
sends exactly one, addressed to `t`, so exactly one message is sent for the
activation and to no other context; its action is `show` if `overlayEnabled`
is true when the injection completes and `hide` otherwise; that value is the
one produced by the activation's own flip exactly when an even number (in
particular zero) of further activations were handled in `mid`. -/
theorem intent_on_injection (evs : List Background.Event) (t : Nat)
    (mid : List Background.Event)
    (hmid : Background.leavesPending
      (Background.run Background.Controller.init evs).injections mid = true) :
    (Background.onClicked (Background.run Background.Controller.init evs) t).sent =
      (Background.run Background.Controller.init evs).sent ∧
    (Background.onSettle
        (Background.run
          (Background.onClicked (Background.run Background.Controller.init evs) t) mid)
        (Background.run Background.Controller.init evs).injections
        Background.InjectionOutcome.injected).sent =
      (Background.run
          (Background.onClicked (Background.run Background.Controller.init evs) t) mid).sent ++
        [(t, { action :=
            if (Background.run
                (Background.onClicked (Background.run Background.Controller.init evs) t)
                mid).overlayEnabled
            then "show" else "hide" })] ∧
    (Background.run
        (Background.onClicked (Background.run Background.Controller.init evs) t)
        mid).overlayEnabled =
      xor (!(Background.run Background.Controller.init evs).overlayEnabled)
        (decide (Background.clicks mid % 2 = 1)) := by
  have hwf := Background.ctl_wf_run evs _ Background.ctl_wf_init
  have hfind := Background.ctl_find_run _ _ mid _
    (Background.wf_onClicked _ t hwf) (Nat.lt_succ_self _)
    (Background.find_onClicked _ t hwf) hmid
  refine ⟨rfl, ?_, ?_⟩
  · rw [Background.onSettle_injected _ _ _ hfind]
  · rw [Background.run_overlayEnabled]
    rfl

/-- C9 at a concrete run: after one completed activation, a click on tab 7
whose injection succeeds while another run settles in between. -/
theorem intent_on_injection_witness :
    (Background.run Background.Controller.init
        [Background.Event.click 5, Background.Event.click 7,
          Background.Event.settle 0 Background.InjectionOutcome.injected,
          Background.Event.settle 1 Background.InjectionOutcome.injected]).sent =
      [(5, { action := "hide" }), (7, { action := "hide" })] :=
  (intent_on_injection [Background.Event.click 5] 7
    [Background.Event.settle 0 Background.InjectionOutcome.injected] (by decide)).2.1

end CutoutCamera
